import Mathlib

/-!
Shallow embedding of the url-shortener service (Go, gin + gorm + redis).

Sources embedded:
  - models (src/unnamed/part_002): `URL`, `ShortenResponse`, `StatsResponse`
  - cache layer (src/cache/redis.go): redis-backed maps with TTLs, nil-client
    degraded mode, `hashString`, `InvalidateCache`, `IsRedisHealthy`
  - durable store (gorm over postgres, src/database/database.go and the
    queries issued by the handlers): modelled as a list of rows with a
    unique index on `shortCode`
  - handlers (src/unnamed/part_001): `ShortenURL`, `RedirectURL`,
    `GetURLStats`, `HealthCheck`, `isValidURL`, `buildShortURL`
  - code generator (src/utils/shortener.go): `GenerateShortCode`
  - the fragment of Go's `net/url.Parse` that `isValidURL` observes
    (scheme and host extraction)

Time is modelled as a `Nat` of seconds passed explicitly to each operation
(`time.Now()` in Go); `AddDate(0, 0, d)` becomes `+ d * 86400`.
The asynchronous click-accounting goroutine spawned by `RedirectURL` is run
to completion before the call returns, which is exactly the "sequential,
no concurrent interleaving" schedule the specification's properties assume.
-/

set_option autoImplicit false

namespace UrlShortener

/-- Row of the `urls` table (models.URL). `DeletedAt` is never set by any
handler, so soft deletion is omitted; `UpdatedAt` is store bookkeeping no
claim observes and is omitted likewise. `expiresAt : Option Nat` is the
nullable `*time.Time` column (absence = never expires). -/
structure URL where
  id : Nat
  originalURL : String
  shortCode : String
  clickCount : Int
  expiresAt : Option Nat
  createdAt : Nat
  deriving Repr, DecidableEq

/-- models.ShortenResponse: body of a successful POST /shorten. -/
structure ShortenResponse where
  shortURL : String
  originalURL : String
  shortCode : String
  expiresAt : Option Nat
  deriving Repr, DecidableEq

/-- models.StatsResponse: body of a successful GET /stats/:shortCode. -/
structure StatsResponse where
  originalURL : String
  shortCode : String
  clickCount : Int
  createdAt : Nat
  expiresAt : Option Nat
  deriving Repr, DecidableEq

/-! Association-list maps standing for the redis keyspace: one entry per
key, `set` overwrites, `del` removes. Values that redis stores with an
expiry carry their absolute expiry time. -/

/-- Set `k := v`, overwriting any previous entry for `k` (redis SET). -/
def alSet {κ α : Type} [BEq κ] (m : List (κ × α)) (k : κ) (v : α) : List (κ × α) :=
  (k, v) :: m.filter (fun p => !(p.1 == k))

/-- Look up `k` (redis GET); `none` is a miss. -/
def alGet {κ α : Type} [BEq κ] (m : List (κ × α)) (k : κ) : Option α :=
  (m.find? (fun p => p.1 == k)).map (fun p => p.2)

/-- Delete `k` (redis DEL); a no-op when absent. -/
def alDel {κ α : Type} [BEq κ] (m : List (κ × α)) (k : κ) : List (κ × α) :=
  m.filter (fun p => !(p.1 == k))

namespace cache

/-- The live redis keyspace, split by key family exactly as redis.go names
its keys. `mapping`, `stats` and `origIdx` values carry the absolute expiry
set by `Set(ctx, key, data, ttl)`; the `url:clicks:%s` counters are created
by INCR with no TTL. `origIdx` is keyed by `hashString(originalURL)` (the
key string `url:original:%x` is injective in the hash value). -/
structure CacheState where
  mapping : List (String × (URL × Nat))
  stats : List (String × (StatsResponse × Nat))
  origIdx : List (Nat × (String × Nat))
  clicks : List (String × Int)
  deriving Repr, DecidableEq

/-- The cache after `InitRedis` succeeded with nothing cached yet. -/
def emptyCache : CacheState := ⟨[], [], [], []⟩

/-- `DefaultCacheTTL = 24 * time.Hour`, in seconds. -/
def DefaultCacheTTL : Nat := 24 * 60 * 60

/-- `StatsCacheTTL = 5 * time.Minute`, in seconds. -/
def StatsCacheTTL : Nat := 5 * 60

/-- cache.hashString: `hash = hash*31 + uint32(c)` folded over the runes of
`s`, in `uint32` arithmetic. -/
def hashString (s : String) : Nat :=
  s.data.foldl (fun h c => (h * 31 + c.toNat) % 2 ^ 32) 0

/-- The process-wide cache handle: `none` is `RedisClient == nil` (redis
unreachable at startup), in which case every cache operation is a silent
no-op or a miss. -/
abbrev Handle := Option CacheState

/-- A TTL-carrying cache read: a hit only while `now` is before the expiry
(an expired redis key reads as absent). -/
def ttlRead {α : Type} (e : Option (α × Nat)) (now : Nat) : Option α :=
  match e with
  | some (v, exp) => if now < exp then some v else none
  | none => none

/-- cache.CacheURLMapping: store the mapping snapshot under
`url:mapping:shortCode` with the 24h TTL; no-op when redis is nil. -/
def CacheURLMapping (c : Handle) (shortCode : String) (urlData : URL) (now : Nat) : Handle :=
  match c with
  | none => none
  | some st => some { st with mapping := alSet st.mapping shortCode (urlData, now + DefaultCacheTTL) }

/-- cache.GetURLMapping: read `url:mapping:shortCode`; `none` is the miss
signal (redis.Nil), also returned when redis is nil. -/
def GetURLMapping (c : Handle) (shortCode : String) (now : Nat) : Option URL :=
  match c with
  | none => none
  | some st => ttlRead (alGet st.mapping shortCode) now

/-- cache.CacheURLStats: store the stats snapshot under `url:stats:shortCode`
with the 5-minute TTL; no-op when redis is nil. -/
def CacheURLStats (c : Handle) (shortCode : String) (s : StatsResponse) (now : Nat) : Handle :=
  match c with
  | none => none
  | some st => some { st with stats := alSet st.stats shortCode (s, now + StatsCacheTTL) }

/-- cache.GetURLStats: read `url:stats:shortCode`; `none` is a miss. -/
def GetURLStats (c : Handle) (shortCode : String) (now : Nat) : Option StatsResponse :=
  match c with
  | none => none
  | some st => ttlRead (alGet st.stats shortCode) now

/-- cache.CacheOriginalURLMapping: store the short code under
`url:original:hashString(originalURL)` with the 24h TTL. -/
def CacheOriginalURLMapping (c : Handle) (originalURL shortCode : String) (now : Nat) : Handle :=
  match c with
  | none => none
  | some st => some { st with origIdx := alSet st.origIdx (hashString originalURL) (shortCode, now + DefaultCacheTTL) }

/-- cache.GetShortCodeForOriginalURL: read the original-URL index by hash. -/
def GetShortCodeForOriginalURL (c : Handle) (originalURL : String) (now : Nat) : Option String :=
  match c with
  | none => none
  | some st => ttlRead (alGet st.origIdx (hashString originalURL)) now

/-- cache.IncrementClickCount: redis INCR on `url:clicks:shortCode`, which
creates the counter at 0 and increments, so an absent counter becomes 1. -/
def IncrementClickCount (c : Handle) (shortCode : String) : Handle :=
  match c with
  | none => none
  | some st =>
      let cur := (alGet st.clicks shortCode).getD 0
      some { st with clicks := alSet st.clicks shortCode (cur + 1) }

/-- cache.GetClickCount: read `url:clicks:shortCode`; `none` is a miss. -/
def GetClickCount (c : Handle) (shortCode : String) : Option Int :=
  match c with
  | none => none
  | some st => alGet st.clicks shortCode

/-- cache.InvalidateCache: DEL the mapping, stats and click-counter keys of
`shortCode` (the original-URL index entry is left in place). -/
def InvalidateCache (c : Handle) (shortCode : String) : Handle :=
  match c with
  | none => none
  | some st =>
      some { st with
        mapping := alDel st.mapping shortCode
        stats := alDel st.stats shortCode
        clicks := alDel st.clicks shortCode }

/-- cache.IsRedisHealthy: false when `RedisClient == nil`, otherwise the
outcome of the PING probe (`pingOK`, an input from the environment). -/
def IsRedisHealthy (c : Handle) (pingOK : Bool) : Bool :=
  match c with
  | none => false
  | some _ => pingOK

end cache

/-! The durable store: the `urls` table as a list of rows in primary-key
order, with gorm's generated queries. -/

/-- Error from a store write. gorm surfaces a postgres unique-constraint
violation on the `shortCode` unique index as a distinguishable error
(`duplicateCode`); `other` stands for every other store failure. -/
inductive StoreError where
  | duplicateCode
  | other
  deriving Repr, DecidableEq

/-- `DB.Where("original_url = ?", u).First(&r)`: first row (primary-key
order) whose `originalURL` equals `u` by exact string match. -/
def dbFindByOriginalURL (db : List URL) (u : String) : Option URL :=
  db.find? (fun r => r.originalURL == u)

/-- `DB.Where("short_code = ?", c).First(&r)`. -/
def dbFindByShortCode (db : List URL) (c : String) : Option URL :=
  db.find? (fun r => r.shortCode == c)

/-- `DB.Create(&r)`: insert, failing atomically with a distinguishable
duplicate-key error when a row with the same `shortCode` already exists
(`uniqueIndex` on the column). -/
def dbInsert (db : List URL) (r : URL) : Except StoreError (List URL) :=
  if db.any (fun x => x.shortCode == r.shortCode) then .error .duplicateCode
  else .ok (db ++ [r])

/-- `DB.Model(urlRecord).Update("click_count", n)`: set `clickCount := n`
on the row with the model's primary key. -/
def dbUpdateClickCount (db : List URL) (id : Nat) (n : Int) : List URL :=
  db.map (fun r => if r.id == id then { r with clickCount := n } else r)

/-- Process state the handlers touch: the table, the cache handle, and the
store's auto-increment counter for primary keys. -/
structure World where
  db : List URL
  cache : cache.Handle
  nextId : Nat
  deriving Repr, DecidableEq

namespace utils

/-- Character set for short codes (alphanumeric, case-sensitive). -/
def charset : String := "abcdefghijklmnopqrstuvwxyzABCDEFGHIJKLMNOPQRSTUVWXYZ0123456789"

/-- Length of the short code. -/
def shortCodeLength : Nat := 6

/-- utils.GenerateShortCode. `crypto/rand.Int(rand.Reader, 62)` is modelled
by the oracle `randomIndex : Nat → Fin 62` giving the i-th drawn index, each
uniform draw being some value below the charset length. -/
def GenerateShortCode (randomIndex : Nat → Fin 62) : String :=
  String.mk ((List.range shortCodeLength).map (fun i => charset.data.getD (randomIndex i).val 'a'))

end utils

/-! The fragment of Go's `net/url.Parse` observed by `isValidURL`: whether
parsing succeeds and the `Scheme` and `Host` fields of the result. This is
an embedding of the external collaborator (the Go standard library), kept
faithful on control-character rejection, scheme extraction, opaque versus
authority forms, userinfo stripping, port validation and percent-escape
validation; IPv6 zone handling and the host-byte escape restrictions are
elided (no claim exercises them). -/

namespace gourl

/-- ASCII letter, as in net/url's getScheme. -/
def isAlphaChar (c : Char) : Bool :=
  ('a' ≤ c && c ≤ 'z') || ('A' ≤ c && c ≤ 'Z')

/-- ASCII digit. -/
def isDigitChar (c : Char) : Bool :=
  '0' ≤ c && c ≤ '9'

/-- Hexadecimal digit, as accepted by net/url's unescape. -/
def isHexChar (c : Char) : Bool :=
  isDigitChar c || ('a' ≤ c && c ≤ 'f') || ('A' ≤ c && c ≤ 'F')

/-- stringContainsCTLByte: any byte below 0x20 or equal to 0x7f. -/
def containsCTL (s : List Char) : Bool :=
  s.any (fun c => c.toNat < 0x20 || c.toNat == 0x7f)

/-- Characters strictly before the first occurrence of `c` (Go's
`split(s, c, true)` / `strings.Cut` keeping the left part). -/
def beforeFirst (s : List Char) (c : Char) : List Char :=
  s.takeWhile (fun x => !(x == c))

/-- Index of the last occurrence of `c` (`strings.LastIndex`). -/
def lastIndexOf (s : List Char) (c : Char) : Option Nat :=
  ((List.range s.length).filter (fun i => s.getD i ' ' == c)).getLast?

/-- getScheme's scan loop: `acc` holds the candidate scheme read so far,
`orig` the whole input (returned unsplit when no scheme is present). `none`
is the "missing protocol scheme" error; otherwise the scheme (possibly
empty) and the remainder. -/
def getSchemeGo (orig : List Char) : List Char → List Char → Option (List Char × List Char)
  | _, [] => some ([], orig)
  | acc, c :: cs =>
      if isAlphaChar c then getSchemeGo orig (acc ++ [c]) cs
      else if isDigitChar c || c == '+' || c == '-' || c == '.' then
        if acc.isEmpty then some ([], orig) else getSchemeGo orig (acc ++ [c]) cs
      else if c == ':' then
        if acc.isEmpty then none else some (acc, cs)
      else some ([], orig)

/-- getScheme: split `rawURL` into scheme and remainder. -/
def getScheme (rawURL : List Char) : Option (List Char × List Char) :=
  getSchemeGo rawURL [] rawURL

/-- validOptionalPort: empty, or a colon followed by digits only. -/
def validOptionalPort (port : List Char) : Bool :=
  match port with
  | [] => true
  | c :: rest => c == ':' && rest.all isDigitChar

/-- unescape's failure condition: every percent sign must begin a valid
two-hex-digit escape. -/
def validEscapes : List Char → Bool
  | [] => true
  | c :: cs =>
      if c == '%' then
        match cs with
        | a :: b :: rest => isHexChar a && isHexChar b && validEscapes rest
        | _ => false
      else validEscapes cs

/-- parseHost: bracketed IPv6 form must close and carry a valid optional
port; otherwise everything after the last colon must be a valid port; the
host bytes must unescape cleanly. Returns the host (with port), or `none`
on error. -/
def parseHost (host : List Char) : Option (List Char) :=
  if host.head? == some '[' then
    match lastIndexOf host ']' with
    | none => none
    | some i =>
        if validOptionalPort (host.drop (i + 1)) && validEscapes host then some host else none
  else
    match lastIndexOf host ':' with
    | some i => if validOptionalPort (host.drop i) && validEscapes host then some host else none
    | none => if validEscapes host then some host else none

/-- parseAuthority: strip the userinfo before the last at-sign, then parse
the host (userinfo character validation is elided — no claim supplies
userinfo). -/
def parseAuthority (authority : List Char) : Option (List Char) :=
  match lastIndexOf authority '@' with
  | none => parseHost authority
  | some i => parseHost (authority.drop (i + 1))

/-- What url.Parse returns, restricted to the two fields isValidURL reads. -/
structure GoURL where
  scheme : String
  host : String
  deriving Repr, DecidableEq

/-- url.Parse for an absolute URL: reject control bytes, cut the fragment,
extract and lowercase the scheme, cut the query, then the opaque form
(no leading slash, host stays empty), the rootless no-scheme form (error on
a colon in the first path segment), or the authority form (`//...` parses
an authority into host). `none` is a parse error. -/
def parse (rawURL : String) : Option GoURL :=
  if containsCTL rawURL.data then none
  else
    let u := beforeFirst rawURL.data '#'
    match getScheme u with
    | none => none
    | some (schemeRaw, afterScheme) =>
        let scheme := schemeRaw.map Char.toLower
        let rest := beforeFirst afterScheme '?'
        if !(rest.head? == some '/') then
          if !scheme.isEmpty then some ⟨String.mk scheme, ""⟩
          else if (beforeFirst rest '/').contains ':' then none
          else if validEscapes rest then some ⟨String.mk scheme, ""⟩
          else none
        else
          if (!scheme.isEmpty || !(['/', '/', '/'].isPrefixOf rest)) && ['/', '/'].isPrefixOf rest then
            let authority := beforeFirst (rest.drop 2) '/'
            let rest2 := (rest.drop 2).drop authority.length
            match parseAuthority authority with
            | none => none
            | some host =>
                if validEscapes rest2 then some ⟨String.mk scheme, String.mk host⟩ else none
          else
            if validEscapes rest then some ⟨String.mk scheme, ""⟩ else none

end gourl

namespace handlers

/-- The expiry timestamp ShortenURL computes:
`time.Now().AddDate(0, 0, request.ExpiresIn)` when `ExpiresIn > 0`, else the
null column. A day is 86400 seconds in the seconds-as-Nat time model. -/
def mkExpiresAt (expiresIn : Int) (now : Nat) : Option Nat :=
  if expiresIn > 0 then some (now + expiresIn.toNat * 86400) else none

/-- 503 / 200 health envelope: status string plus the two probe booleans. -/
structure HealthResponse where
  status : String
  httpCode : Nat
  databaseHealthy : Bool
  cacheHealthy : Bool
  deriving Repr, DecidableEq

/-- Outcome of POST /shorten. -/
inductive ShortenResult where
  | badRequest
  | ok (resp : ShortenResponse)
  | created (resp : ShortenResponse)
  | serverError
  deriving Repr, DecidableEq

/-- Outcome of GET /:shortCode. -/
inductive RedirectResult where
  | notFound
  | gone
  | moved (location : String)
  deriving Repr, DecidableEq

/-- Outcome of GET /stats/:shortCode. -/
inductive StatsResult where
  | ok (resp : StatsResponse)
  | notFound
  deriving Repr, DecidableEq

/-- handlers.isValidURL: `url.Parse` succeeds with non-empty Scheme and
non-empty Host. -/
def isValidURL (str : String) : Bool :=
  match gourl.parse str with
  | some u => !(u.scheme == "") && !(u.host == "")
  | none => false

/-- handlers.buildShortURL: scheme from TLS presence, then host and code. -/
def buildShortURL (tls : Bool) (host : String) (shortCode : String) : String :=
  (if tls then "https" else "http") ++ "://" ++ host ++ "/" ++ shortCode

/-- The ShortenResponse the handler assembles from a URL row. -/
def mkShortenResponse (tls : Bool) (host : String) (r : URL) : ShortenResponse :=
  { shortURL := buildShortURL tls host r.shortCode
    originalURL := r.originalURL
    shortCode := r.shortCode
    expiresAt := r.expiresAt }

/-- ShortenURL after both cache indices missed: the database duplicate
check, then generation and insert. `genCode` is the value
`utils.GenerateShortCode()` returned for this call. -/
def shortenStorePath (w : World) (reqURL : String) (expiresIn : Int) (now : Nat)
    (genCode : String) (tls : Bool) (host : String) : ShortenResult × World :=
  match dbFindByOriginalURL w.db reqURL with
  | some existingURL =>
      let c1 := cache.CacheURLMapping w.cache existingURL.shortCode existingURL now
      let c2 := cache.CacheOriginalURLMapping c1 existingURL.originalURL existingURL.shortCode now
      (.ok (mkShortenResponse tls host existingURL), { w with cache := c2 })
  | none =>
      let expiresAt : Option Nat := mkExpiresAt expiresIn now
      let urlRecord : URL :=
        { id := w.nextId
          originalURL := reqURL
          shortCode := genCode
          clickCount := 0
          expiresAt := expiresAt
          createdAt := now }
      match dbInsert w.db urlRecord with
      | .error _ => (.serverError, w)
      | .ok db2 =>
          let c1 := cache.CacheURLMapping w.cache urlRecord.shortCode urlRecord now
          let c2 := cache.CacheOriginalURLMapping c1 urlRecord.originalURL urlRecord.shortCode now
          (.created (mkShortenResponse tls host urlRecord), ⟨db2, c2, w.nextId + 1⟩)

/-- handlers.ShortenURL: validate, consult the original-URL cache index and
the mapping cache (either miss falls through), then the store path. -/
def ShortenURL (w : World) (reqURL : String) (expiresIn : Int) (now : Nat)
    (genCode : String) (tls : Bool) (host : String) : ShortenResult × World :=
  if !isValidURL reqURL then (.badRequest, w)
  else
    match (cache.GetShortCodeForOriginalURL w.cache reqURL now).bind
        (fun sc => cache.GetURLMapping w.cache sc now) with
    | some urlData => (.ok (mkShortenResponse tls host urlData), w)
    | none => shortenStorePath w reqURL expiresIn now genCode tls host

/-- The expiry test in RedirectURL:
`urlRecord.ExpiresAt != nil && urlRecord.ExpiresAt.Before(time.Now())`. -/
def urlExpired (r : URL) (now : Nat) : Bool :=
  match r.expiresAt with
  | some t => decide (t < now)
  | none => false

/-- The click-accounting goroutine: increment the cache counter, write
`clickCount + 1` of the snapshot the handler read (not a re-read) to the
store, then invalidate the per-code cache entries. -/
def redirectClickTask (w : World) (urlRecord : URL) (shortCode : String) : World :=
  let c1 := cache.IncrementClickCount w.cache shortCode
  let db1 := dbUpdateClickCount w.db urlRecord.id (urlRecord.clickCount + 1)
  { w with db := db1, cache := cache.InvalidateCache c1 shortCode }

/-- RedirectURL once a mapping was found: the expiry check, then the
click-accounting task (run to completion: the sequential schedule) and the
301 response. -/
def redirectFound (w : World) (urlRecord : URL) (shortCode : String) (now : Nat) :
    RedirectResult × World :=
  if urlExpired urlRecord now then (.gone, w)
  else (.moved urlRecord.originalURL, redirectClickTask w urlRecord shortCode)

/-- handlers.RedirectURL: mapping cache, then store lookup (404 on miss,
re-cache on hit), expiry check (410), click accounting, 301. -/
def RedirectURL (w : World) (shortCode : String) (now : Nat) : RedirectResult × World :=
  match cache.GetURLMapping w.cache shortCode now with
  | some cachedURL => redirectFound w cachedURL shortCode now
  | none =>
      match dbFindByShortCode w.db shortCode with
      | none => (.notFound, w)
      | some dbURL =>
          let w2 := { w with cache := cache.CacheURLMapping w.cache shortCode dbURL now }
          redirectFound w2 dbURL shortCode now

/-- handlers.GetURLStats: stats cache, then store lookup (404 on miss), the
live cache click counter when present (store value otherwise), and a
5-minute stats cache fill. -/
def GetURLStats (w : World) (shortCode : String) (now : Nat) : StatsResult × World :=
  match cache.GetURLStats w.cache shortCode now with
  | some cachedStats => (.ok cachedStats, w)
  | none =>
      match dbFindByShortCode w.db shortCode with
      | none => (.notFound, w)
      | some urlRecord =>
          let clickCount : Int :=
            match cache.GetClickCount w.cache shortCode with
            | some n => n
            | none => urlRecord.clickCount
          let response : StatsResponse :=
            { originalURL := urlRecord.originalURL
              shortCode := urlRecord.shortCode
              clickCount := clickCount
              createdAt := urlRecord.createdAt
              expiresAt := urlRecord.expiresAt }
          (.ok response, { w with cache := cache.CacheURLStats w.cache shortCode response now })

/-- handlers.HealthCheck: `dbHealthy` is the outcome of the store liveness
probe (`DB.DB()` then `Ping()`), `pingOK` the redis PING outcome when a
client exists. Unhealthy (503) exactly on store failure; the cache being
down only degrades the status. -/
def HealthCheck (dbHealthy : Bool) (c : cache.Handle) (pingOK : Bool) : HealthResponse :=
  let redisHealthy := cache.IsRedisHealthy c pingOK
  if !dbHealthy then ⟨"unhealthy", 503, dbHealthy, redisHealthy⟩
  else if !redisHealthy then ⟨"degraded", 200, dbHealthy, redisHealthy⟩
  else ⟨"healthy", 200, dbHealthy, redisHealthy⟩

end handlers

/-- The `url:clicks:*` key family of a cache handle (empty when redis is
nil), the footprint click accounting writes to on the cache side. -/
def clicksOf (c : cache.Handle) : List (String × Int) :=
  match c with
  | none => []
  | some st => st.clicks

/-- A fresh process: empty table, cache connected and empty, first
auto-increment key 1. -/
def initialWorld : World :=
  ⟨[], some cache.emptyCache, 1⟩

/-- `n` back-to-back GET /:shortCode requests at time `now`, each one's
click-accounting task completing before the next request (the sequential
schedule of the spec's click-count property). -/
def iterateRedirect (shortCode : String) (now : Nat) : Nat → World → World
  | 0, w => w
  | n + 1, w => iterateRedirect shortCode now n (handlers.RedirectURL w shortCode now).2

/-- The single table row of the one-URL scenario after `k` accounted
clicks. -/
def rowAfter (u shortCode : String) (expiresAt : Option Nat) (now k : Nat) : URL :=
  ⟨1, u, shortCode, (k : Int), expiresAt, now⟩

/-- Closed form of the one-URL scenario's state once at least one redirect
has run: the row carries `k` clicks and every per-code cache entry has been
invalidated, only the original-URL index entry surviving. -/
def worldAfter (u shortCode : String) (expiresAt : Option Nat) (now k : Nat) : World :=
  ⟨[rowAfter u shortCode expiresAt now k],
   some ⟨[], [], [(cache.hashString u, (shortCode, now + cache.DefaultCacheTTL))], []⟩, 2⟩

/-- Closed form of the one-URL scenario's state right after the create:
one row with zero clicks, both cache indices filled. -/
def createdWorld (u shortCode : String) (expiresAt : Option Nat) (now : Nat) : World :=
  ⟨[rowAfter u shortCode expiresAt now 0],
   some ⟨[(shortCode, (rowAfter u shortCode expiresAt now 0, now + cache.DefaultCacheTTL))], [],
     [(cache.hashString u, (shortCode, now + cache.DefaultCacheTTL))], []⟩, 2⟩

/-- State after shortening `https://e.com/Ab` in a fresh process. The URL
`https://e.com/BC` is distinct but has the same `hashString` image (31-based
polynomial: `Ab` and `BC` collide), so its original-URL cache key is
already occupied by this world's entry. -/
def collisionWorld : World :=
  (handlers.ShortenURL initialWorld "https://e.com/Ab" 0 100 "c11111" false "sh.rt").2

/-! Helper lemmas shared by several of the claim proofs. -/

theorem alGet_alSet_self {κ α : Type} [BEq κ] [LawfulBEq κ] (m : List (κ × α)) (k : κ) (v : α) :
    alGet (alSet m k v) k = some v := by
  simp [alGet, alSet]

theorem ttlRead_fresh {α : Type} (v : α) (now ttl : Nat) (h : 0 < ttl) :
    cache.ttlRead (some (v, now + ttl)) now = some v := by
  simp only [cache.ttlRead]
  rw [if_pos (by omega)]

theorem find?_append_of_none {α : Type} (p : α → Bool) (l₁ l₂ : List α)
    (h : l₁.find? p = none) : (l₁ ++ l₂).find? p = l₂.find? p := by
  rw [List.find?_append, h, Option.none_or]

/-- C7: the URL validator accepts exactly the strings that parse (in the
net/url model) with a non-empty scheme and a non-empty host; in particular
it rejects `"not a url"` and `"example.com"` and accepts
`"https://example.com/path"`. -/
theorem isValidURL_exactly_scheme_host :
    (∀ s : String, handlers.isValidURL s = true ↔
      ∃ u : gourl.GoURL, gourl.parse s = some u ∧ u.scheme ≠ "" ∧ u.host ≠ "") ∧
    handlers.isValidURL "not a url" = false ∧
    handlers.isValidURL "example.com" = false ∧
    handlers.isValidURL "https://example.com/path" = true := by
  refine ⟨fun s => ?_, by decide, by decide, by decide⟩
  unfold handlers.isValidURL
  cases h : gourl.parse s with
  | none => simp
  | some u => simp [h]

/-- C8: every string the code generator returns has length exactly 6 and
all its characters are drawn from the 62-character alphanumeric charset. -/
theorem generateShortCode_shape :
    ∀ randomIndex : Nat → Fin 62,
      (utils.GenerateShortCode randomIndex).length = 6 ∧
      ∀ c ∈ (utils.GenerateShortCode randomIndex).data,
        c ∈ utils.charset.data ∧ (gourl.isAlphaChar c || gourl.isDigitChar c) = true := by
  intro r
  have key : ∀ v : Fin 62,
      utils.charset.data.getD v.val 'a' ∈ utils.charset.data ∧
      (gourl.isAlphaChar (utils.charset.data.getD v.val 'a') ||
        gourl.isDigitChar (utils.charset.data.getD v.val 'a')) = true := by decide
  refine ⟨rfl, ?_⟩
  intro c hc
  simp only [utils.GenerateShortCode, List.mem_map, List.mem_range] at hc
  obtain ⟨i, _, rfl⟩ := hc
  exact key (r i)

/-- C9: HealthCheck answers 503/"unhealthy" exactly when the store liveness
probe fails; with the store up it answers 200, "degraded" when the cache
probe fails and "healthy" when both probes succeed. -/
theorem healthCheck_status_spec :
    ∀ (dbHealthy pingOK : Bool) (c : cache.Handle),
      (((handlers.HealthCheck dbHealthy c pingOK).status = "unhealthy") ↔ dbHealthy = false) ∧
      (((handlers.HealthCheck dbHealthy c pingOK).httpCode = 503) ↔ dbHealthy = false) ∧
      (dbHealthy = true → (handlers.HealthCheck dbHealthy c pingOK).httpCode = 200 ∧
        (handlers.HealthCheck dbHealthy c pingOK).status =
          (if cache.IsRedisHealthy c pingOK then "healthy" else "degraded")) := by
  intro dbHealthy pingOK c
  cases c <;> cases dbHealthy <;> cases pingOK <;>
    simp [handlers.HealthCheck, cache.IsRedisHealthy]

/-- Witness for C9 at a concrete input: store up, redis client nil. -/
theorem healthCheck_status_spec_witness :
    (handlers.HealthCheck true none true).httpCode = 200 ∧
    (handlers.HealthCheck true none true).status =
      (if cache.IsRedisHealthy none true then "healthy" else "degraded") :=
  (healthCheck_status_spec true true none).2.2 rfl

/-- C6: inserting a record whose generated short code equals an existing
row's `shortCode` fails on the store's unique constraint with the
duplicate-key error — distinguishable from every other store failure — and
the create handler's insert step surfaces the failure instead of storing a
second row. -/
theorem insert_collision_distinguishable
    (w : World) (reqURL : String) (expiresIn : Int) (now : Nat)
    (genCode host : String) (tls : Bool) (s : URL)
    (hvalid : handlers.isValidURL reqURL = true)
    (hcachemiss : (cache.GetShortCodeForOriginalURL w.cache reqURL now).bind
        (fun sc => cache.GetURLMapping w.cache sc now) = none)
    (hdbmiss : dbFindByOriginalURL w.db reqURL = none)
    (hs : s ∈ w.db) (hcode : s.shortCode = genCode) :
    (∀ r : URL, r.shortCode = genCode → dbInsert w.db r = .error .duplicateCode) ∧
    StoreError.duplicateCode ≠ StoreError.other ∧
    handlers.ShortenURL w reqURL expiresIn now genCode tls host = (.serverError, w) := by
  have hdup : ∀ r : URL, r.shortCode = genCode → dbInsert w.db r = .error .duplicateCode := by
    intro r hr
    unfold dbInsert
    rw [if_pos]
    exact List.any_eq_true.mpr ⟨s, hs, by simp [hr, hcode]⟩
  refine ⟨hdup, by decide, ?_⟩
  simp only [handlers.ShortenURL, hvalid, Bool.not_true, Bool.false_eq_true, if_false, hcachemiss]
  simp only [handlers.shortenStorePath, hdbmiss]
  rw [hdup _ rfl]

/-- Witness for C6: a table already holding code `abc123`, a create whose
generator drew `abc123` again. -/
theorem insert_collision_distinguishable_witness :
    handlers.ShortenURL ⟨[⟨1, "https://e.com/a", "abc123", 0, none, 50⟩], none, 2⟩
        "https://e.com/b" 0 100 "abc123" false "sh.rt" =
      (.serverError, ⟨[⟨1, "https://e.com/a", "abc123", 0, none, 50⟩], none, 2⟩) :=
  (insert_collision_distinguishable
      ⟨[⟨1, "https://e.com/a", "abc123", 0, none, 50⟩], none, 2⟩
      "https://e.com/b" 0 100 "abc123" "sh.rt" false
      ⟨1, "https://e.com/a", "abc123", 0, none, 50⟩
      (by decide) rfl (by decide) (by decide) rfl).2.2

/-- C4: a redirect for a code with no live mapping answers 404 NotFound,
and a redirect for a mapped code whose `expiresAt` lies strictly in the
past answers 410 Gone, an outcome distinct from NotFound. -/
theorem redirect_notFound_vs_expired
    (w : World) (shortCode : String) (now : Nat) :
    ((cache.GetURLMapping w.cache shortCode now = none ∧
        dbFindByShortCode w.db shortCode = none) →
      handlers.RedirectURL w shortCode now = (.notFound, w)) ∧
    (∀ (r : URL) (t : Nat),
      (cache.GetURLMapping w.cache shortCode now = some r ∨
        (cache.GetURLMapping w.cache shortCode now = none ∧
          dbFindByShortCode w.db shortCode = some r)) →
      r.expiresAt = some t → t < now →
      (handlers.RedirectURL w shortCode now).1 = .gone) ∧
    handlers.RedirectResult.gone ≠ handlers.RedirectResult.notFound := by
  refine ⟨?_, ?_, by decide⟩
  · rintro ⟨hc, hdb⟩
    simp [handlers.RedirectURL, hc, hdb]
  · rintro r t (hc | ⟨hc, hdb⟩) hexp hlt
    · simp [handlers.RedirectURL, hc, handlers.redirectFound, handlers.urlExpired, hexp, hlt]
    · simp [handlers.RedirectURL, hc, hdb, handlers.redirectFound, handlers.urlExpired, hexp, hlt]

/-- Witness for C4: an unknown code on an empty table, and a code mapped to
a row that expired at time 3 redirected at time 5. -/
theorem redirect_notFound_vs_expired_witness :
    handlers.RedirectURL ⟨[], none, 1⟩ "zzz" 5 = (.notFound, ⟨[], none, 1⟩) ∧
    (handlers.RedirectURL ⟨[⟨1, "https://e.com/a", "abc", 0, some 3, 1⟩], none, 2⟩ "abc" 5).1 =
      .gone :=
  ⟨(redirect_notFound_vs_expired ⟨[], none, 1⟩ "zzz" 5).1 ⟨rfl, rfl⟩,
   (redirect_notFound_vs_expired ⟨[⟨1, "https://e.com/a", "abc", 0, some 3, 1⟩], none, 2⟩
       "abc" 5).2.1 ⟨1, "https://e.com/a", "abc", 0, some 3, 1⟩ 3
     (Or.inr ⟨rfl, by decide⟩) rfl (by decide)⟩

/-- The cache click counters are untouched by a mapping-cache fill. -/
theorem clicksOf_cacheURLMapping (c : cache.Handle) (k : String) (r : URL) (now : Nat) :
    clicksOf (cache.CacheURLMapping c k r now) = clicksOf c := by
  cases c <;> simp [cache.CacheURLMapping, clicksOf]

/-- C10: a failing redirect (404 unknown code or 410 expired) dispatches no
click accounting: the table — hence every row's `clickCount` — and the
cache click counters are exactly as before the call. -/
theorem redirect_failure_no_click_accounting
    (w : World) (shortCode : String) (now : Nat)
    (hfail : (handlers.RedirectURL w shortCode now).1 = .notFound ∨
      (handlers.RedirectURL w shortCode now).1 = .gone) :
    (handlers.RedirectURL w shortCode now).2.db = w.db ∧
    clicksOf (handlers.RedirectURL w shortCode now).2.cache = clicksOf w.cache := by
  cases hc : cache.GetURLMapping w.cache shortCode now with
  | some r =>
      simp only [handlers.RedirectURL, hc, handlers.redirectFound] at hfail ⊢
      by_cases hexp : handlers.urlExpired r now = true
      · simp [hexp]
      · simp [hexp, handlers.redirectClickTask] at hfail
  | none =>
      cases hdb : dbFindByShortCode w.db shortCode with
      | none => simp [handlers.RedirectURL, hc, hdb]
      | some r =>
          simp only [handlers.RedirectURL, hc, hdb, handlers.redirectFound] at hfail ⊢
          by_cases hexp : handlers.urlExpired r now = true
          · simp [hexp, clicksOf_cacheURLMapping]
          · simp [hexp, handlers.redirectClickTask] at hfail

/-- Witness for C10: the unknown-code redirect on an empty table. -/
theorem redirect_failure_no_click_accounting_witness :
    (handlers.RedirectURL ⟨[], none, 1⟩ "zzz" 5).2.db = [] ∧
    clicksOf (handlers.RedirectURL ⟨[], none, 1⟩ "zzz" 5).2.cache = clicksOf none :=
  redirect_failure_no_click_accounting ⟨[], none, 1⟩ "zzz" 5 (Or.inl rfl)

/-- C5: with no cache connection every cache read signals a miss and every
cache write, increment and invalidation is a silent no-op; the data
operations return the same responses, and leave the same table, as they
would over an empty live cache; and HealthCheck with a healthy store
reports status "degraded". -/
theorem cache_unavailable_degraded_mode :
    ∀ (db : List URL) (nextId : Nat) (reqURL shortCode genCode host : String)
      (expiresIn : Int) (now : Nat) (tls : Bool) (r : URL) (s : StatsResponse) (pingOK : Bool),
      cache.GetURLMapping none shortCode now = none ∧
      cache.GetURLStats none shortCode now = none ∧
      cache.GetShortCodeForOriginalURL none reqURL now = none ∧
      cache.GetClickCount none shortCode = none ∧
      cache.CacheURLMapping none shortCode r now = none ∧
      cache.CacheURLStats none shortCode s now = none ∧
      cache.CacheOriginalURLMapping none reqURL shortCode now = none ∧
      cache.IncrementClickCount none shortCode = none ∧
      cache.InvalidateCache none shortCode = none ∧
      (handlers.ShortenURL ⟨db, none, nextId⟩ reqURL expiresIn now genCode tls host).1 =
        (handlers.ShortenURL ⟨db, some cache.emptyCache, nextId⟩ reqURL expiresIn now genCode tls host).1 ∧
      (handlers.ShortenURL ⟨db, none, nextId⟩ reqURL expiresIn now genCode tls host).2.db =
        (handlers.ShortenURL ⟨db, some cache.emptyCache, nextId⟩ reqURL expiresIn now genCode tls host).2.db ∧
      (handlers.RedirectURL ⟨db, none, nextId⟩ shortCode now).1 =
        (handlers.RedirectURL ⟨db, some cache.emptyCache, nextId⟩ shortCode now).1 ∧
      (handlers.RedirectURL ⟨db, none, nextId⟩ shortCode now).2.db =
        (handlers.RedirectURL ⟨db, some cache.emptyCache, nextId⟩ shortCode now).2.db ∧
      (handlers.GetURLStats ⟨db, none, nextId⟩ shortCode now).1 =
        (handlers.GetURLStats ⟨db, some cache.emptyCache, nextId⟩ shortCode now).1 ∧
      handlers.HealthCheck true none pingOK = ⟨"degraded", 200, true, false⟩ := by
  intro db nextId reqURL shortCode genCode host expiresIn now tls r s pingOK
  have hshort :
      (handlers.ShortenURL ⟨db, none, nextId⟩ reqURL expiresIn now genCode tls host).1 =
        (handlers.ShortenURL ⟨db, some cache.emptyCache, nextId⟩ reqURL expiresIn now genCode tls host).1 ∧
      (handlers.ShortenURL ⟨db, none, nextId⟩ reqURL expiresIn now genCode tls host).2.db =
        (handlers.ShortenURL ⟨db, some cache.emptyCache, nextId⟩ reqURL expiresIn now genCode tls host).2.db := by
    unfold handlers.ShortenURL
    cases hv : handlers.isValidURL reqURL
    · simp [hv]
    · simp only [hv, Bool.not_true, Bool.false_eq_true, if_false]
      unfold handlers.shortenStorePath
      simp only [cache.GetShortCodeForOriginalURL, cache.GetURLMapping, cache.emptyCache,
        Option.bind, alGet, List.find?_nil, Option.map_none', cache.ttlRead]
      cases hdb : dbFindByOriginalURL db reqURL
      · cases hins : dbInsert db
            ⟨nextId, reqURL, genCode, 0, handlers.mkExpiresAt expiresIn now, now⟩ <;> simp
      · simp
  have hred :
      (handlers.RedirectURL ⟨db, none, nextId⟩ shortCode now).1 =
        (handlers.RedirectURL ⟨db, some cache.emptyCache, nextId⟩ shortCode now).1 ∧
      (handlers.RedirectURL ⟨db, none, nextId⟩ shortCode now).2.db =
        (handlers.RedirectURL ⟨db, some cache.emptyCache, nextId⟩ shortCode now).2.db := by
    unfold handlers.RedirectURL
    simp only [cache.GetURLMapping, cache.emptyCache, alGet, List.find?_nil,
      Option.map_none', cache.ttlRead]
    cases hdb : dbFindByShortCode db shortCode with
    | none => simp
    | some u =>
        unfold handlers.redirectFound handlers.redirectClickTask
        cases hexp : handlers.urlExpired u now <;> simp [hexp, dbUpdateClickCount]
  have hstats :
      (handlers.GetURLStats ⟨db, none, nextId⟩ shortCode now).1 =
        (handlers.GetURLStats ⟨db, some cache.emptyCache, nextId⟩ shortCode now).1 := by
    unfold handlers.GetURLStats
    simp only [cache.GetURLStats, cache.GetClickCount, cache.emptyCache, alGet,
      List.find?_nil, Option.map_none', cache.ttlRead]
    cases hdb : dbFindByShortCode db shortCode <;> simp
  exact ⟨rfl, rfl, rfl, rfl, rfl, rfl, rfl, rfl, rfl,
    hshort.1, hshort.2, hred.1, hred.2, hstats, rfl⟩

theorem dbFindByOriginalURL_spec (db : List URL) (u : String) (r : URL)
    (h : dbFindByOriginalURL db u = some r) : r.originalURL = u ∧ r ∈ db := by
  unfold dbFindByOriginalURL at h
  exact ⟨by simpa using List.find?_some h, List.mem_of_find?_eq_some h⟩

theorem dbFindByShortCode_spec (db : List URL) (c : String) (r : URL)
    (h : dbFindByShortCode db c = some r) : r.shortCode = c ∧ r ∈ db := by
  unfold dbFindByShortCode at h
  exact ⟨by simpa using List.find?_some h, List.mem_of_find?_eq_some h⟩

theorem dbInsert_ok (db db2 : List URL) (r : URL) (h : dbInsert db r = .ok db2) :
    db2 = db ++ [r] ∧ db.any (fun x => x.shortCode == r.shortCode) = false := by
  unfold dbInsert at h
  by_cases hany : db.any (fun x => x.shortCode == r.shortCode) = true
  · rw [if_pos hany] at h
    cases h
  · rw [if_neg hany] at h
    cases h
    exact ⟨rfl, by simpa using hany⟩

theorem dbFindByOriginalURL_append_self (db : List URL) (r : URL)
    (h : dbFindByOriginalURL db r.originalURL = none) :
    dbFindByOriginalURL (db ++ [r]) r.originalURL = some r := by
  unfold dbFindByOriginalURL at h ⊢
  rw [find?_append_of_none _ _ _ h]
  simp [List.find?]

/-- After the create path fills both cache indices for a row, the create
path's combined cache lookup for that row's URL hits and returns the row. -/
theorem lookup_after_cache_fill (st : cache.CacheState) (r : URL) (now : Nat) :
    (cache.GetShortCodeForOriginalURL
        (cache.CacheOriginalURLMapping
          (cache.CacheURLMapping (some st) r.shortCode r now) r.originalURL r.shortCode now)
        r.originalURL now).bind
      (fun sc => cache.GetURLMapping
        (cache.CacheOriginalURLMapping
          (cache.CacheURLMapping (some st) r.shortCode r now) r.originalURL r.shortCode now)
        sc now) = some r := by
  simp only [cache.CacheURLMapping, cache.CacheOriginalURLMapping,
    cache.GetShortCodeForOriginalURL, cache.GetURLMapping]
  rw [alGet_alSet_self, ttlRead_fresh _ _ _ (by decide)]
  simp only [Option.some_bind]
  rw [alGet_alSet_self, ttlRead_fresh _ _ _ (by decide)]

/-- A create that finds its URL already mapped — through the cache indices
or through the store's exact-match lookup — answers 200 "already exists"
with that mapping and adds no row. -/
theorem shorten_already_exists
    (w1 : World) (r : URL) (e2 : Int) (now : Nat) (g2 host : String) (tls : Bool)
    (hv : handlers.isValidURL r.originalURL = true)
    (hlookup : (cache.GetShortCodeForOriginalURL w1.cache r.originalURL now).bind
        (fun sc => cache.GetURLMapping w1.cache sc now) = some r ∨
      ((cache.GetShortCodeForOriginalURL w1.cache r.originalURL now).bind
          (fun sc => cache.GetURLMapping w1.cache sc now) = none ∧
        dbFindByOriginalURL w1.db r.originalURL = some r)) :
    (handlers.ShortenURL w1 r.originalURL e2 now g2 tls host).1 =
      .ok (handlers.mkShortenResponse tls host r) ∧
    (handlers.ShortenURL w1 r.originalURL e2 now g2 tls host).2.db = w1.db := by
  rcases hlookup with hl | ⟨hl, hdb⟩
  · simp [handlers.ShortenURL, hv, hl]
  · simp [handlers.ShortenURL, hv, hl, handlers.shortenStorePath, hdb]

/-- C3: two back-to-back creates of the same URL with no concurrency: when
the first call succeeds (201 created or 200 already-exists), the second
call answers 200 "already exists" with the same short code and inserts no
second row (its table is exactly the table the first call left). -/
theorem create_twice_same_code
    (w : World) (reqURL : String) (e1 e2 : Int) (now : Nat) (g1 g2 host : String)
    (tls : Bool) (resp : ShortenResponse)
    (h1 : (handlers.ShortenURL w reqURL e1 now g1 tls host).1 = .ok resp ∨
      (handlers.ShortenURL w reqURL e1 now g1 tls host).1 = .created resp) :
    ∃ resp2 : ShortenResponse,
      (handlers.ShortenURL (handlers.ShortenURL w reqURL e1 now g1 tls host).2
          reqURL e2 now g2 tls host).1 = .ok resp2 ∧
      resp2.shortCode = resp.shortCode ∧
      (handlers.ShortenURL (handlers.ShortenURL w reqURL e1 now g1 tls host).2
          reqURL e2 now g2 tls host).2.db =
        (handlers.ShortenURL w reqURL e1 now g1 tls host).2.db := by
  cases hv : handlers.isValidURL reqURL with
  | false =>
      exfalso
      rcases h1 with h1 | h1 <;> simp [handlers.ShortenURL, hv] at h1
  | true =>
  cases hcl : (cache.GetShortCodeForOriginalURL w.cache reqURL now).bind
      (fun sc => cache.GetURLMapping w.cache sc now) with
  | some urlData =>
      have e : handlers.ShortenURL w reqURL e1 now g1 tls host =
          (.ok (handlers.mkShortenResponse tls host urlData), w) := by
        simp [handlers.ShortenURL, hv, hcl]
      have hresp : resp = handlers.mkShortenResponse tls host urlData := by
        rcases h1 with h1 | h1 <;> rw [e] at h1 <;> simp at h1 <;> exact h1.symm
      refine ⟨handlers.mkShortenResponse tls host urlData, ?_, by rw [hresp], ?_⟩
      · rw [e]
        simp [handlers.ShortenURL, hv, hcl]
      · rw [e]
        simp [handlers.ShortenURL, hv, hcl]
  | none =>
  cases hdb : dbFindByOriginalURL w.db reqURL with
  | some existing =>
      obtain ⟨horig, _⟩ := dbFindByOriginalURL_spec w.db reqURL existing hdb
      have e : handlers.ShortenURL w reqURL e1 now g1 tls host =
          (.ok (handlers.mkShortenResponse tls host existing),
            { w with cache := (cache.CacheOriginalURLMapping
                  (cache.CacheURLMapping w.cache existing.shortCode existing now)
                  existing.originalURL existing.shortCode now) }) := by
        simp [handlers.ShortenURL, hv, hcl, handlers.shortenStorePath, hdb]
      have hresp : resp = handlers.mkShortenResponse tls host existing := by
        rcases h1 with h1 | h1 <;> rw [e] at h1 <;> simp at h1 <;> exact h1.symm
      have hsecond := shorten_already_exists
        (handlers.ShortenURL w reqURL e1 now g1 tls host).2 existing e2 now g2 host tls
        (by rw [horig]; exact hv) ?_
      · rw [horig] at hsecond
        exact ⟨handlers.mkShortenResponse tls host existing,
          hsecond.1, by rw [hresp], hsecond.2⟩
      · rw [e]
        cases hw : w.cache with
        | none =>
            right
            constructor
            · simp [cache.CacheURLMapping, cache.CacheOriginalURLMapping,
                cache.GetShortCodeForOriginalURL]
            · simpa [horig] using hdb
        | some st =>
            left
            exact lookup_after_cache_fill st existing now
  | none =>
      cases hins : dbInsert w.db ⟨w.nextId, reqURL, g1, 0, handlers.mkExpiresAt e1 now, now⟩ with
      | error err =>
          exfalso
          rcases h1 with h1 | h1 <;>
            simp [handlers.ShortenURL, hv, hcl, handlers.shortenStorePath, hdb, hins] at h1
      | ok db2 =>
          obtain ⟨hdb2, _⟩ := dbInsert_ok w.db db2 _ hins
          have e : handlers.ShortenURL w reqURL e1 now g1 tls host =
              (.created (handlers.mkShortenResponse tls host
                  ⟨w.nextId, reqURL, g1, 0, handlers.mkExpiresAt e1 now, now⟩),
                ⟨db2, cache.CacheOriginalURLMapping
                  (cache.CacheURLMapping w.cache g1
                    ⟨w.nextId, reqURL, g1, 0, handlers.mkExpiresAt e1 now, now⟩ now)
                  reqURL g1 now, w.nextId + 1⟩) := by
            simp [handlers.ShortenURL, hv, hcl, handlers.shortenStorePath, hdb, hins]
          have hresp : resp = handlers.mkShortenResponse tls host
              ⟨w.nextId, reqURL, g1, 0, handlers.mkExpiresAt e1 now, now⟩ := by
            rcases h1 with h1 | h1 <;> rw [e] at h1 <;> simp at h1 <;> exact h1.symm
          have hsecond := shorten_already_exists
            (handlers.ShortenURL w reqURL e1 now g1 tls host).2
            ⟨w.nextId, reqURL, g1, 0, handlers.mkExpiresAt e1 now, now⟩ e2 now g2 host tls hv ?_
          · exact ⟨handlers.mkShortenResponse tls host
                ⟨w.nextId, reqURL, g1, 0, handlers.mkExpiresAt e1 now, now⟩,
              hsecond.1, by rw [hresp], hsecond.2⟩
          · rw [e]
            cases hw : w.cache with
            | none =>
                right
                constructor
                · simp [cache.CacheURLMapping, cache.CacheOriginalURLMapping,
                    cache.GetShortCodeForOriginalURL]
                · rw [hdb2]
                  exact dbFindByOriginalURL_append_self w.db _ hdb
            | some st =>
                left
                exact lookup_after_cache_fill st
                  ⟨w.nextId, reqURL, g1, 0, handlers.mkExpiresAt e1 now, now⟩ now

/-- Witness for C3: both creates of `https://e.com/page` in a fresh
process, the generator drawing `abc123` then `zzz999`. -/
theorem create_twice_same_code_witness :
    ∃ resp2 : ShortenResponse,
      (handlers.ShortenURL
          (handlers.ShortenURL initialWorld "https://e.com/page" 0 100 "abc123" false "sh.rt").2
          "https://e.com/page" 0 100 "zzz999" false "sh.rt").1 = .ok resp2 ∧
      resp2.shortCode =
        (⟨"http://sh.rt/abc123", "https://e.com/page", "abc123", none⟩ : ShortenResponse).shortCode ∧
      (handlers.ShortenURL
          (handlers.ShortenURL initialWorld "https://e.com/page" 0 100 "abc123" false "sh.rt").2
          "https://e.com/page" 0 100 "zzz999" false "sh.rt").2.db =
        (handlers.ShortenURL initialWorld "https://e.com/page" 0 100 "abc123" false "sh.rt").2.db :=
  create_twice_same_code initialWorld "https://e.com/page" 0 0 100 "abc123" "zzz999" "sh.rt"
    false ⟨"http://sh.rt/abc123", "https://e.com/page", "abc123", none⟩ (Or.inr (by decide))

/-- C1 counterexample: `https://e.com/Ab` and `https://e.com/BC` are
distinct valid URLs with equal `hashString` images, so after creating the
first, creating the second hits the colliding original-URL cache entry and
returns the first URL's mapping and code — and redirecting that code lands
on the first URL, not the one just passed to create. -/
theorem create_redirect_roundtrip_cex :
    handlers.isValidURL "https://e.com/BC" = true ∧
    cache.hashString "https://e.com/Ab" = cache.hashString "https://e.com/BC" ∧
    "https://e.com/Ab" ≠ "https://e.com/BC" ∧
    (handlers.ShortenURL collisionWorld "https://e.com/BC" 0 100 "c22222" false "sh.rt").1 =
      .ok ⟨"http://sh.rt/c11111", "https://e.com/Ab", "c11111", none⟩ ∧
    (handlers.RedirectURL
        (handlers.ShortenURL collisionWorld "https://e.com/BC" 0 100 "c22222" false "sh.rt").2
        "c11111" 100).1 = .moved "https://e.com/Ab" :=
  ⟨by decide, by decide, by decide, by decide, by decide⟩

/-- C1 amended: for a valid URL taking the fresh-creation path (no
original-URL cache hit — in particular no hash-colliding index entry — and
no existing store row for it), with a generated code that does not collide
in the store, create followed immediately by redirect of the returned code
yields a redirect whose target is exactly the created URL. -/
theorem create_then_redirect_fresh
    (w : World) (reqURL : String) (expiresIn : Int) (now : Nat) (genCode host : String)
    (tls : Bool)
    (hvalid : handlers.isValidURL reqURL = true)
    (hcache : (cache.GetShortCodeForOriginalURL w.cache reqURL now).bind
        (fun sc => cache.GetURLMapping w.cache sc now) = none)
    (hdb : dbFindByOriginalURL w.db reqURL = none)
    (hnocode : ∀ s ∈ w.db, s.shortCode ≠ genCode) :
    ∃ resp : ShortenResponse,
      (handlers.ShortenURL w reqURL expiresIn now genCode tls host).1 = .created resp ∧
      resp.shortCode = genCode ∧
      (handlers.RedirectURL (handlers.ShortenURL w reqURL expiresIn now genCode tls host).2
          genCode now).1 = .moved reqURL := by
  have hany : w.db.any (fun x => x.shortCode == genCode) = false := by
    rw [List.any_eq_false]
    intro x hx
    simp [hnocode x hx]
  have hins : dbInsert w.db ⟨w.nextId, reqURL, genCode, 0, handlers.mkExpiresAt expiresIn now, now⟩
      = .ok (w.db ++ [⟨w.nextId, reqURL, genCode, 0, handlers.mkExpiresAt expiresIn now, now⟩]) := by
    unfold dbInsert
    rw [if_neg (by simp [hany])]
  have hexp : handlers.urlExpired
      ⟨w.nextId, reqURL, genCode, 0, handlers.mkExpiresAt expiresIn now, now⟩ now = false := by
    unfold handlers.urlExpired handlers.mkExpiresAt
    by_cases he : expiresIn > 0
    · simp [he]
    · simp [he]
  have e : handlers.ShortenURL w reqURL expiresIn now genCode tls host =
      (.created (handlers.mkShortenResponse tls host
          ⟨w.nextId, reqURL, genCode, 0, handlers.mkExpiresAt expiresIn now, now⟩),
        ⟨w.db ++ [⟨w.nextId, reqURL, genCode, 0, handlers.mkExpiresAt expiresIn now, now⟩],
          (cache.CacheOriginalURLMapping
            (cache.CacheURLMapping w.cache genCode
              ⟨w.nextId, reqURL, genCode, 0, handlers.mkExpiresAt expiresIn now, now⟩ now)
            reqURL genCode now), w.nextId + 1⟩) := by
    simp [handlers.ShortenURL, hvalid, hcache, handlers.shortenStorePath, hdb, hins]
  refine ⟨handlers.mkShortenResponse tls host
      ⟨w.nextId, reqURL, genCode, 0, handlers.mkExpiresAt expiresIn now, now⟩,
    by rw [e], rfl, ?_⟩
  rw [e]
  cases hw : w.cache with
  | none =>
      have hfind : dbFindByShortCode
          (w.db ++ [⟨w.nextId, reqURL, genCode, 0, handlers.mkExpiresAt expiresIn now, now⟩])
          genCode = some ⟨w.nextId, reqURL, genCode, 0, handlers.mkExpiresAt expiresIn now, now⟩ := by
        unfold dbFindByShortCode
        rw [find?_append_of_none]
        · simp [List.find?]
        · rw [List.find?_eq_none]
          intro x hx
          simp [hnocode x hx]
      simp [handlers.RedirectURL, cache.CacheURLMapping, cache.CacheOriginalURLMapping,
        cache.GetURLMapping, hfind, handlers.redirectFound, hexp]
  | some st =>
      have hget : cache.GetURLMapping
          (cache.CacheOriginalURLMapping
            (cache.CacheURLMapping (some st) genCode
              ⟨w.nextId, reqURL, genCode, 0, handlers.mkExpiresAt expiresIn now, now⟩ now)
            reqURL genCode now) genCode now =
          some ⟨w.nextId, reqURL, genCode, 0, handlers.mkExpiresAt expiresIn now, now⟩ := by
        simp only [cache.CacheURLMapping, cache.CacheOriginalURLMapping, cache.GetURLMapping]
        rw [alGet_alSet_self, ttlRead_fresh _ _ _ (by decide)]
      simp [handlers.RedirectURL, hget, handlers.redirectFound, hexp]

/-- Witness for the amended C1: a fresh process shortening
`https://e.com/page` to `abc123` and immediately redirecting it. -/
theorem create_then_redirect_fresh_witness :
    ∃ resp : ShortenResponse,
      (handlers.ShortenURL initialWorld "https://e.com/page" 0 100 "abc123" false "sh.rt").1 =
        .created resp ∧
      resp.shortCode = "abc123" ∧
      (handlers.RedirectURL
          (handlers.ShortenURL initialWorld "https://e.com/page" 0 100 "abc123" false "sh.rt").2
          "abc123" 100).1 = .moved "https://e.com/page" :=
  create_then_redirect_fresh initialWorld "https://e.com/page" 0 100 "abc123" "sh.rt" false
    (by decide) rfl rfl (by simp [initialWorld])

theorem rowAfter_not_expired (U shortCode : String) (expiresIn : Int) (now k : Nat) :
    handlers.urlExpired (rowAfter U shortCode (handlers.mkExpiresAt expiresIn now) now k) now
      = false := by
  unfold handlers.urlExpired rowAfter handlers.mkExpiresAt
  by_cases he : expiresIn > 0
  · simp [he]
  · simp [he]

theorem shorten_initial_eval (U : String) (expiresIn : Int) (now : Nat)
    (shortCode host : String) (tls : Bool) (hvalid : handlers.isValidURL U = true) :
    (handlers.ShortenURL initialWorld U expiresIn now shortCode tls host).2 =
      createdWorld U shortCode (handlers.mkExpiresAt expiresIn now) now := by
  simp [handlers.ShortenURL, hvalid, initialWorld, cache.emptyCache, handlers.shortenStorePath,
    dbFindByOriginalURL, dbInsert, rowAfter, createdWorld, cache.CacheURLMapping,
    cache.CacheOriginalURLMapping, alSet, cache.GetShortCodeForOriginalURL,
    cache.GetURLMapping, alGet, cache.ttlRead]

theorem redirect_createdWorld (U shortCode : String) (expiresIn : Int) (now : Nat) :
    handlers.RedirectURL (createdWorld U shortCode (handlers.mkExpiresAt expiresIn now) now)
        shortCode now =
      (.moved U, worldAfter U shortCode (handlers.mkExpiresAt expiresIn now) now 1) := by
  have hlt : now < now + cache.DefaultCacheTTL := Nat.lt_add_of_pos_right (by decide)
  have hexp := rowAfter_not_expired U shortCode expiresIn now 0
  simp only [rowAfter, Nat.cast_zero] at hexp
  simp [handlers.RedirectURL, createdWorld, cache.GetURLMapping, alGet, cache.ttlRead, hlt,
    handlers.redirectFound, hexp, handlers.redirectClickTask, cache.IncrementClickCount,
    dbUpdateClickCount, cache.InvalidateCache, alSet, alDel, worldAfter, rowAfter]

theorem redirect_worldAfter (U shortCode : String) (expiresIn : Int) (now k : Nat) :
    handlers.RedirectURL (worldAfter U shortCode (handlers.mkExpiresAt expiresIn now) now k)
        shortCode now =
      (.moved U, worldAfter U shortCode (handlers.mkExpiresAt expiresIn now) now (k + 1)) := by
  have hexp := rowAfter_not_expired U shortCode expiresIn now k
  simp only [rowAfter] at hexp
  simp [handlers.RedirectURL, worldAfter, cache.GetURLMapping, alGet, cache.ttlRead,
    dbFindByShortCode, List.find?, rowAfter, cache.CacheURLMapping, alSet,
    handlers.redirectFound, hexp, handlers.redirectClickTask, cache.IncrementClickCount,
    dbUpdateClickCount, cache.InvalidateCache, alDel]

theorem iterate_worldAfter (U shortCode : String) (expiresIn : Int) (now : Nat) :
    ∀ n k : Nat,
      iterateRedirect shortCode now n
          (worldAfter U shortCode (handlers.mkExpiresAt expiresIn now) now k) =
        worldAfter U shortCode (handlers.mkExpiresAt expiresIn now) now (k + n) := by
  intro n
  induction n with
  | zero => intro k; simp [iterateRedirect]
  | succ m ih =>
      intro k
      simp only [iterateRedirect, redirect_worldAfter]
      rw [ih (k + 1)]
      congr 1
      omega

theorem stats_worldAfter (U shortCode : String) (expiresIn : Int) (now k : Nat) :
    (handlers.GetURLStats (worldAfter U shortCode (handlers.mkExpiresAt expiresIn now) now k)
        shortCode now).1 =
      .ok ⟨U, shortCode, (k : Int), now, handlers.mkExpiresAt expiresIn now⟩ := by
  simp [handlers.GetURLStats, worldAfter, rowAfter, cache.GetURLStats, cache.GetClickCount,
    alGet, cache.ttlRead, dbFindByShortCode, List.find?, cache.CacheURLStats]

theorem stats_createdWorld (U shortCode : String) (expiresIn : Int) (now : Nat) :
    (handlers.GetURLStats (createdWorld U shortCode (handlers.mkExpiresAt expiresIn now) now)
        shortCode now).1 =
      .ok ⟨U, shortCode, (0 : Int), now, handlers.mkExpiresAt expiresIn now⟩ := by
  simp [handlers.GetURLStats, createdWorld, rowAfter, cache.GetURLStats, cache.GetClickCount,
    alGet, cache.ttlRead, dbFindByShortCode, List.find?, cache.CacheURLStats]

/-- C2: in a fresh process, create a URL, run N sequential redirects of its
code — each call's click-accounting task completing before the next call —
then ask for its stats. Every redirect succeeds, and because the last
redirect's invalidation emptied the per-code stats cache entry, GetStats
reads the store and reports the creation-time click count (0) plus N. -/
theorem stats_after_n_redirects
    (U : String) (expiresIn : Int) (now : Nat) (shortCode host : String) (tls : Bool) (N : Nat)
    (hvalid : handlers.isValidURL U = true) :
    (∀ k, k < N →
      (handlers.RedirectURL
          (iterateRedirect shortCode now k
            (handlers.ShortenURL initialWorld U expiresIn now shortCode tls host).2)
          shortCode now).1 = .moved U) ∧
    ∃ resp : StatsResponse,
      (handlers.GetURLStats
          (iterateRedirect shortCode now N
            (handlers.ShortenURL initialWorld U expiresIn now shortCode tls host).2)
          shortCode now).1 = .ok resp ∧
      resp.clickCount = (0 : Int) + (N : Int) := by
  have hcreate := shorten_initial_eval U expiresIn now shortCode host tls hvalid
  constructor
  · intro k hk
    cases k with
    | zero =>
        rw [hcreate]
        simp [iterateRedirect, redirect_createdWorld U shortCode expiresIn now]
    | succ m =>
        rw [hcreate]
        simp only [iterateRedirect, redirect_createdWorld]
        rw [iterate_worldAfter]
        rw [redirect_worldAfter]
  · cases N with
    | zero =>
        rw [hcreate]
        exact ⟨⟨U, shortCode, (0 : Int), now, handlers.mkExpiresAt expiresIn now⟩,
          by simp [iterateRedirect, stats_createdWorld U shortCode expiresIn now], by simp⟩
    | succ m =>
        rw [hcreate]
        simp only [iterateRedirect, redirect_createdWorld]
        rw [iterate_worldAfter]
        refine ⟨⟨U, shortCode, ((1 + m : Nat) : Int), now, handlers.mkExpiresAt expiresIn now⟩,
          stats_worldAfter U shortCode expiresIn now (1 + m), ?_⟩
        push_cast
        ring

/-- Witness for C2: three redirects of `abc123` for `https://e.com/page` in
a fresh process. -/
theorem stats_after_n_redirects_witness :
    (∀ k, k < 3 →
      (handlers.RedirectURL
          (iterateRedirect "abc123" 100 k
            (handlers.ShortenURL initialWorld "https://e.com/page" 0 100 "abc123" false "sh.rt").2)
          "abc123" 100).1 = .moved "https://e.com/page") ∧
    ∃ resp : StatsResponse,
      (handlers.GetURLStats
          (iterateRedirect "abc123" 100 3
            (handlers.ShortenURL initialWorld "https://e.com/page" 0 100 "abc123" false "sh.rt").2)
          "abc123" 100).1 = .ok resp ∧
      resp.clickCount = (0 : Int) + ((3 : Nat) : Int) :=
  stats_after_n_redirects "https://e.com/page" 0 100 "abc123" "sh.rt" false 3 (by decide)

end UrlShortener
